import Mathlib

/- Shallow embedding of the mabp-coordinator TypeScript sources:
   the data model (ComponentStatus, Component, BuildState), the message
   codec (parseMessage, formatMessage from src/parser.ts) and the
   coordination engine (Coordinator from src/coordinator.ts).
   JavaScript millisecond timestamps are modelled as Int; the insertion
   ordered JS Map is modelled as an association list with Map.set and
   Map.get semantics (mapSet, findEntry, mapUpdate). -/

namespace Mabp

/-- Component lifecycle status (src/types.ts, ComponentStatus). -/
inductive ComponentStatus where
  | pending
  | claimed
  | building
  | ready
  | auditing
  | merged
  | failed
deriving DecidableEq, Repr

/-- Textual form of a status, as interpolated into REJECT messages. -/
def statusText : ComponentStatus → String
  | .pending => "pending"
  | .claimed => "claimed"
  | .building => "building"
  | .ready => "ready"
  | .auditing => "auditing"
  | .merged => "merged"
  | .failed => "failed"

/-- One buildable unit (src/types.ts, Component). Optional fields of the
TypeScript interface become Option. -/
structure Component where
  name : String
  status : ComponentStatus
  assignee : Option String := none
  dependencies : List String
  prUrl : Option String := none
  claimedAt : Option Int := none
  lastProgress : Option Int := none
  retryCount : Nat := 0
deriving DecidableEq, Repr

/-- Protocol message kinds (src/types.ts, MessageType). -/
inductive MessageType where
  | TASKS
  | CLAIM
  | ACK
  | REJECT
  | PROGRESS
  | BLOCKED
  | READY
  | AUDIT
  | MERGED
  | TIMEOUT
  | RETRY
  | ABORT
deriving DecidableEq, Repr

/-- Textual keyword of a message kind, used by the default case of
formatMessage. -/
def typeText : MessageType → String
  | .TASKS => "TASKS"
  | .CLAIM => "CLAIM"
  | .ACK => "ACK"
  | .REJECT => "REJECT"
  | .PROGRESS => "PROGRESS"
  | .BLOCKED => "BLOCKED"
  | .READY => "READY"
  | .AUDIT => "AUDIT"
  | .MERGED => "MERGED"
  | .TIMEOUT => "TIMEOUT"
  | .RETRY => "RETRY"
  | .ABORT => "ABORT"

/-- A parsed protocol event (src/types.ts, ParsedMessage). The parser
always fills component and agent, so they are plain strings here. -/
structure ParsedMessage where
  type : MessageType
  component : String
  agent : String
  value : Option String := none
deriving DecidableEq, Repr

/-- ASCII lower-casing of one character, the effect of toLowerCase on the
ASCII inputs the protocol uses. -/
def asciiLower (c : Char) : Char :=
  if 'A' ≤ c ∧ c ≤ 'Z' then Char.ofNat (c.toNat + 32) else c

/-- Lower-case a character list. -/
def lowerChars (l : List Char) : List Char := l.map asciiLower

/-- JavaScript whitespace characters relevant to trim and the regex
class backslash-s. -/
def isWs (c : Char) : Bool :=
  c == ' ' || c == '\t' || c == '\n' || c == '\r' || c == '\x0b' || c == '\x0c'

/-- String.prototype.trim on a character list: drop whitespace from both
ends. -/
def jsTrim (l : List Char) : List Char :=
  ((l.dropWhile isWs).reverse.dropWhile isWs).reverse

/-- The leading optional markdown-bold group of every message pattern:
strip one leading double asterisk if present. -/
def stripBold (l : List Char) : List Char :=
  match l with
  | a :: b :: rest => if a = '*' ∧ b = '*' then rest else a :: b :: rest
  | _ => l

/-- Case-insensitive literal keyword match; returns the remainder after
the keyword. -/
def matchKeyword : List Char → List Char → Option (List Char)
  | [], l => some l
  | _ :: _, [] => none
  | k :: ks, c :: cs => if asciiLower c = asciiLower k then matchKeyword ks cs else none

/-- One-or-more whitespace (regex backslash-s plus): requires a leading
whitespace character, consumes the maximal whitespace run. -/
def wsPlus : List Char → Option (List Char)
  | [] => none
  | c :: cs => if isWs c then some (cs.dropWhile isWs) else none

/-- A non-empty maximal non-whitespace token (regex backslash-S plus),
with the remainder. -/
def takeTok (l : List Char) : Option (List Char × List Char) :=
  match l.span (fun c => !isWs c) with
  | ([], _) => none
  | (t, rest) => some (t, rest)

/-- A non-empty maximal digit run (regex backslash-d plus), with the
remainder. -/
def digitsTok (l : List Char) : Option (List Char × List Char) :=
  match l.span Char.isDigit with
  | ([], _) => none
  | (t, rest) => some (t, rest)

/-- A non-empty maximal run of line characters (regex dot-plus: anything
except line terminators). -/
def lineTok (l : List Char) : Option (List Char) :=
  match l.takeWhile (fun c => !(c == '\n' || c == '\r')) with
  | [] => none
  | t => some t

/-- The case-insensitive PASS-or-FAIL alternation of the AUDIT pattern;
captures the four matched characters exactly as typed. -/
def matchVerdict (l : List Char) : Option (List Char) :=
  match l with
  | a :: b :: c :: d :: _ =>
    if (asciiLower a = 'p' ∧ asciiLower b = 'a' ∧ asciiLower c = 's' ∧ asciiLower d = 's')
        ∨ (asciiLower a = 'f' ∧ asciiLower b = 'a' ∧ asciiLower c = 'i' ∧ asciiLower d = 'l')
    then some [a, b, c, d] else none
  | _ => none

/-- Tail of the CLAIM pattern after the keyword: whitespace then the
component token; no value capture. -/
def claimTail (r : List Char) : Option (List Char × Option (List Char)) :=
  match wsPlus r with
  | none => none
  | some r2 =>
    match takeTok r2 with
    | none => none
    | some (comp, _) => some (comp, none)

/-- Tail of the PROGRESS pattern: component token, whitespace, a digit
run captured as the value. -/
def progressTail (r : List Char) : Option (List Char × Option (List Char)) :=
  match wsPlus r with
  | none => none
  | some r2 =>
    match takeTok r2 with
    | none => none
    | some (comp, r3) =>
      match wsPlus r3 with
      | none => none
      | some r4 =>
        match digitsTok r4 with
        | none => none
        | some (num, _) => some (comp, some num)

/-- Tail of the READY pattern: component token, then an optional second
token captured as the value. -/
def readyTail (r : List Char) : Option (List Char × Option (List Char)) :=
  match wsPlus r with
  | none => none
  | some r2 =>
    match takeTok r2 with
    | none => none
    | some (comp, r3) =>
      match wsPlus r3 with
      | none => some (comp, none)
      | some r4 =>
        match takeTok r4 with
        | none => some (comp, none)
        | some (t, _) => some (comp, some t)

/-- Tail of the BLOCKED pattern: component token then a required second
token captured as the value. -/
def blockedTail (r : List Char) : Option (List Char × Option (List Char)) :=
  match wsPlus r with
  | none => none
  | some r2 =>
    match takeTok r2 with
    | none => none
    | some (comp, r3) =>
      match wsPlus r3 with
      | none => none
      | some r4 =>
        match takeTok r4 with
        | none => none
        | some (t, _) => some (comp, some t)

/-- Tail of the ABORT pattern: component token then an optional free-text
reason captured as the value. -/
def abortTail (r : List Char) : Option (List Char × Option (List Char)) :=
  match wsPlus r with
  | none => none
  | some r2 =>
    match takeTok r2 with
    | none => none
    | some (comp, r3) =>
      match wsPlus r3 with
      | none => some (comp, none)
      | some r4 =>
        match lineTok r4 with
        | none => some (comp, none)
        | some t => some (comp, some t)

/-- Tail of the AUDIT pattern: component token, whitespace, the
PASS-or-FAIL token captured as the value (the optional note is dropped
by the caller, which uses capture two). -/
def auditTail (r : List Char) : Option (List Char × Option (List Char)) :=
  match wsPlus r with
  | none => none
  | some r2 =>
    match takeTok r2 with
    | none => none
    | some (comp, r3) =>
      match wsPlus r3 with
      | none => none
      | some r4 =>
        match matchVerdict r4 with
        | none => none
        | some v => some (comp, some v)

/-- The CLAIM pattern of MESSAGE_PATTERNS. -/
def tryClaim (l : List Char) : Option (List Char × Option (List Char)) :=
  match matchKeyword ['c', 'l', 'a', 'i', 'm'] (stripBold l) with
  | none => none
  | some r => claimTail r

/-- The PROGRESS pattern of MESSAGE_PATTERNS. -/
def tryProgress (l : List Char) : Option (List Char × Option (List Char)) :=
  match matchKeyword ['p', 'r', 'o', 'g', 'r', 'e', 's', 's'] (stripBold l) with
  | none => none
  | some r => progressTail r

/-- The READY pattern of MESSAGE_PATTERNS. -/
def tryReady (l : List Char) : Option (List Char × Option (List Char)) :=
  match matchKeyword ['r', 'e', 'a', 'd', 'y'] (stripBold l) with
  | none => none
  | some r => readyTail r

/-- The BLOCKED pattern of MESSAGE_PATTERNS. -/
def tryBlocked (l : List Char) : Option (List Char × Option (List Char)) :=
  match matchKeyword ['b', 'l', 'o', 'c', 'k', 'e', 'd'] (stripBold l) with
  | none => none
  | some r => blockedTail r

/-- The ABORT pattern of MESSAGE_PATTERNS. -/
def tryAbort (l : List Char) : Option (List Char × Option (List Char)) :=
  match matchKeyword ['a', 'b', 'o', 'r', 't'] (stripBold l) with
  | none => none
  | some r => abortTail r

/-- The AUDIT pattern of MESSAGE_PATTERNS. -/
def tryAudit (l : List Char) : Option (List Char × Option (List Char)) :=
  match matchKeyword ['a', 'u', 'd', 'i', 't'] (stripBold l) with
  | none => none
  | some r => auditTail r

/-- Build the ParsedMessage from one pattern hit: lower-case the
component capture, inject the sender, keep the value as typed. -/
def mkParsed (t : MessageType) (comp : List Char) (fromAgent : String)
    (v : Option (List Char)) : ParsedMessage :=
  { type := t, component := String.mk (lowerChars comp), agent := fromAgent,
    value := v.map String.mk }

/-- Try the ordered pattern list on a trimmed line; first match wins
(src/parser.ts, parseMessage loop). -/
def parseLine (l : List Char) (fromAgent : String) : Option ParsedMessage :=
  match tryClaim l with
  | some (c, v) => some (mkParsed .CLAIM c fromAgent v)
  | none =>
    match tryProgress l with
    | some (c, v) => some (mkParsed .PROGRESS c fromAgent v)
    | none =>
      match tryReady l with
      | some (c, v) => some (mkParsed .READY c fromAgent v)
      | none =>
        match tryBlocked l with
        | some (c, v) => some (mkParsed .BLOCKED c fromAgent v)
        | none =>
          match tryAbort l with
          | some (c, v) => some (mkParsed .ABORT c fromAgent v)
          | none =>
            match tryAudit l with
            | some (c, v) => some (mkParsed .AUDIT c fromAgent v)
            | none => none

/-- src/parser.ts parseMessage: trim the content, then try the ordered
patterns. -/
def parseMessage (content : String) (fromAgent : String) : Option ParsedMessage :=
  parseLine (jsTrim content.data) fromAgent

/-- Join strings with a separator (Array.prototype.join). -/
def joinSep (sep : String) : List String → String
  | [] => ""
  | [x] => x
  | x :: y :: xs => x ++ sep ++ joinSep sep (y :: xs)

/-- src/parser.ts formatMessage: render one outbound protocol line. -/
def formatMessage (t : MessageType) (args : List String) : String :=
  match t with
  | .TASKS => "TASKS " ++ args.headD "undefined" ++ "\nAvailable components: "
      ++ joinSep ", " (args.drop 1)
  | .ACK => "ACK " ++ args.headD "undefined" ++ " " ++ (args.drop 1).headD "undefined"
  | .REJECT => "REJECT " ++ args.headD "undefined" ++ " \""
      ++ (args.drop 1).headD "undefined" ++ "\""
  | .MERGED => "MERGED " ++ args.headD "undefined"
  | .TIMEOUT => "TIMEOUT " ++ args.headD "undefined"
  | _ => typeText t ++ " " ++ joinSep " " args

/-- Engine configuration (src/coordinator.ts, CoordinatorConfig). -/
structure CoordinatorConfig where
  progressTimeoutMs : Int
  claimExpiryMs : Int
  maxRetries : Nat
deriving DecidableEq, Repr

/-- src/coordinator.ts DEFAULT_CONFIG: ten minutes, two minutes, three
retries. -/
def DEFAULT_CONFIG : CoordinatorConfig :=
  { progressTimeoutMs := 600000, claimExpiryMs := 120000, maxRetries := 3 }

/-- The build aggregate (src/types.ts, BuildState); the JS Map becomes an
insertion-ordered association list. -/
structure BuildState where
  specUrl : String
  components : List (String × Component)
  startedAt : Int
deriving DecidableEq, Repr

/-- Map.get: first (and, by Map semantics, only) entry with the key. -/
def findEntry : List (String × Component) → String → Option Component
  | [], _ => none
  | (k, v) :: rest, key => if k = key then some v else findEntry rest key

/-- Map.set: replace the value at an existing key in place, else append. -/
def mapSet : List (String × Component) → String → Component → List (String × Component)
  | [], key, v => [(key, v)]
  | (k, w) :: rest, key, v =>
    if k = key then (k, v) :: rest else (k, w) :: mapSet rest key v

/-- Mutation of the object returned by Map.get: rewrite the first entry
with the key through f. -/
def mapUpdate : List (String × Component) → String → (Component → Component) →
    List (String × Component)
  | [], _, _ => []
  | (k, v) :: rest, key, f =>
    if k = key then (k, f v) :: rest else (k, v) :: mapUpdate rest key f

/-- Constructor loop of the Coordinator: lower-case the key and the
dependency names, keep the display name, start pending with no retries. -/
def initState (specUrl : String) (comps : List (String × List String))
    (startedAt : Int) : BuildState :=
  { specUrl := specUrl,
    components := comps.foldl (fun m c =>
      mapSet m (String.mk (lowerChars c.1.data))
        { name := c.1, status := .pending,
          dependencies := c.2.map (fun d => String.mk (lowerChars d.data)),
          retryCount := 0 }) [],
    startedAt := startedAt }

/-- Inner loop of dependenciesMet: all named dependencies resolve to an
entry whose status is merged. -/
def depsAllMerged (s : BuildState) : List String → Bool
  | [] => true
  | d :: ds =>
    match findEntry s.components d with
    | none => false
    | some dep => if dep.status = .merged then depsAllMerged s ds else false

/-- src/coordinator.ts dependenciesMet. -/
def dependenciesMet (s : BuildState) (c : Component) : Bool :=
  depsAllMerged s c.dependencies

/-- The filter computed inside handleClaim for the dependencies-not-met
REJECT: dependencies that are missing or not merged. -/
def unmetDeps (s : BuildState) : List String → List String
  | [] => []
  | d :: ds =>
    match findEntry s.components d with
    | none => d :: unmetDeps s ds
    | some dep =>
      if dep.status = .merged then unmetDeps s ds else d :: unmetDeps s ds

/-- The per-component claimability test of getAvailableComponents. -/
def claimableB (s : BuildState) (c : Component) : Bool :=
  if c.status = .pending then dependenciesMet s c else false

/-- src/coordinator.ts getAvailableComponents: pending components with
all dependencies merged, in map iteration (insertion) order. -/
def getAvailableComponents (s : BuildState) : List Component :=
  (s.components.map Prod.snd).filter (claimableB s)

/-- src/coordinator.ts broadcastTasks: one TASKS message listing the
available component display names. -/
def broadcastTasks (s : BuildState) : List String :=
  [formatMessage .TASKS (s.specUrl :: (getAvailableComponents s).map (fun c => c.name))]

/-- Inner loop of isComplete. -/
def allMerged : List (String × Component) → Bool
  | [] => true
  | e :: rest => if e.2.status = .merged then allMerged rest else false

/-- src/coordinator.ts isComplete: every component merged. -/
def isComplete (s : BuildState) : Bool :=
  allMerged s.components

/-- The assignee shown in the already-claimed REJECT: the assignee when
truthy, else the fallback text. -/
def assigneeText : Option String → String
  | none => "another agent"
  | some a => if a = "" then "another agent" else a

/-- src/coordinator.ts handleClaim: reject unknown, non-pending or
dependency-blocked components, otherwise assign and acknowledge. -/
def handleClaim (s : BuildState) (msg : ParsedMessage) (now : Int) :
    BuildState × List String :=
  match findEntry s.components msg.component with
  | none => (s, [formatMessage .REJECT [msg.component, "component not found"]])
  | some comp =>
    if comp.status ≠ .pending then
      (s, [formatMessage .REJECT [msg.component,
            "already " ++ statusText comp.status ++ " by " ++ assigneeText comp.assignee]])
    else if dependenciesMet s comp then
      ({ s with components := mapUpdate s.components msg.component (fun c =>
          { c with status := .claimed, assignee := some msg.agent, claimedAt := some now }) },
        [formatMessage .ACK [msg.component, msg.agent]])
    else
      (s, [formatMessage .REJECT [msg.component,
            "dependencies not met: " ++ joinSep ", " (unmetDeps s comp.dependencies)]])

/-- src/coordinator.ts handleProgress: only the current assignee moves
the component to building and refreshes lastProgress. -/
def handleProgress (s : BuildState) (msg : ParsedMessage) (now : Int) :
    BuildState × List String :=
  match findEntry s.components msg.component with
  | none => (s, [])
  | some comp =>
    if comp.assignee = some msg.agent then
      ({ s with components := mapUpdate s.components msg.component (fun c =>
          { c with status := .building, lastProgress := some now }) }, [])
    else (s, [])

/-- src/coordinator.ts handleReady: only the current assignee moves the
component to ready and records the artifact reference. -/
def handleReady (s : BuildState) (msg : ParsedMessage) :
    BuildState × List String :=
  match findEntry s.components msg.component with
  | none => (s, [])
  | some comp =>
    if comp.assignee = some msg.agent then
      ({ s with components := mapUpdate s.components msg.component (fun c =>
          { c with status := .ready, prUrl := msg.value }) }, [])
    else (s, [])

/-- src/coordinator.ts handleAbort: only the current assignee releases
the component; the release clears assignee and claimedAt and
re-broadcasts the task list. -/
def handleAbort (s : BuildState) (msg : ParsedMessage) :
    BuildState × List String :=
  match findEntry s.components msg.component with
  | none => (s, [])
  | some comp =>
    if comp.assignee = some msg.agent then
      let s2 : BuildState :=
        { s with components := mapUpdate s.components msg.component (fun c =>
            { c with status := .pending, assignee := none, claimedAt := none }) }
      (s2, broadcastTasks s2)
    else (s, [])

/-- src/coordinator.ts handleAudit: an exact PASS value merges the
component (messages: MERGED, TASKS, and the completion notice when the
build is done); anything else counts as FAIL and bumps retryCount, with
release and RETRY at the retry limit. -/
def handleAudit (cfg : CoordinatorConfig) (s : BuildState) (msg : ParsedMessage) :
    BuildState × List String :=
  match findEntry s.components msg.component with
  | none => (s, [])
  | some comp =>
    if msg.value = some "PASS" then
      let s2 : BuildState :=
        { s with components := mapUpdate s.components msg.component (fun c =>
            { c with status := .merged }) }
      (s2, [formatMessage .MERGED [msg.component]] ++ broadcastTasks s2 ++
        (if isComplete s2 then ["BUILD COMPLETE " ++ s2.specUrl] else []))
    else
      if comp.retryCount + 1 ≥ cfg.maxRetries then
        ({ s with components := mapUpdate s.components msg.component (fun c =>
            { c with retryCount := c.retryCount + 1, status := .pending, assignee := none }) },
          [formatMessage .RETRY [msg.component]])
      else
        ({ s with components := mapUpdate s.components msg.component (fun c =>
            { c with retryCount := c.retryCount + 1, status := .building }) }, [])

/-- The switch of src/coordinator.ts handleMessage, on an already parsed
event. -/
def handleParsed (cfg : CoordinatorConfig) (s : BuildState) (msg : ParsedMessage)
    (now : Int) : BuildState × List String :=
  match msg.type with
  | .CLAIM => handleClaim s msg now
  | .PROGRESS => handleProgress s msg now
  | .READY => handleReady s msg
  | .BLOCKED => (s, [])
  | .ABORT => handleAbort s msg
  | .AUDIT => handleAudit cfg s msg
  | _ => (s, [])

/-- src/coordinator.ts handleMessage: parse, then dispatch; unparsed
text is ignored. -/
def handleMessage (cfg : CoordinatorConfig) (s : BuildState) (content : String)
    (fromAgent : String) (now : Int) : BuildState × List String :=
  match parseMessage content fromAgent with
  | none => (s, [])
  | some msg => handleParsed cfg s msg now

/-- JS truthiness of an optional numeric timestamp: present and nonzero. -/
def truthyTime : Option Int → Bool
  | none => false
  | some t => !(t = 0)

/-- The claim-expiry test of checkTimeouts. -/
def expiredClaim (cfg : CoordinatorConfig) (now : Int) (c : Component) : Bool :=
  if c.status = .claimed then
    match c.claimedAt with
    | none => false
    | some t => if t = 0 then false else decide (now - t > cfg.claimExpiryMs)
  else false

/-- The progress-timeout test of checkTimeouts. -/
def expiredProgress (cfg : CoordinatorConfig) (now : Int) (c : Component) : Bool :=
  if c.status = .building then
    match c.lastProgress with
    | none => false
    | some t => if t = 0 then false else decide (now - t > cfg.progressTimeoutMs)
  else false

/-- The body of the checkTimeouts loop for one component: the claim
expiry check, then the progress check on the possibly released
component. -/
def sweepComp (cfg : CoordinatorConfig) (now : Int) (c : Component) :
    Component × List String :=
  let p1 : Component × List String :=
    if expiredClaim cfg now c then
      ({ c with status := .pending, assignee := none, claimedAt := none },
        [formatMessage .TIMEOUT [c.name]])
    else (c, [])
  let p2 : Component × List String :=
    if expiredProgress cfg now p1.1 then
      ({ p1.1 with status := .pending, assignee := none, lastProgress := none },
        [formatMessage .TIMEOUT [p1.1.name]])
    else (p1.1, [])
  (p2.1, p1.2 ++ p2.2)

/-- checkTimeouts over the whole entry list, collecting TIMEOUT
messages in iteration order. -/
def sweepList (cfg : CoordinatorConfig) (now : Int) :
    List (String × Component) → List (String × Component) × List String
  | [] => ([], [])
  | (k, c) :: rest =>
    let p := sweepComp cfg now c
    let q := sweepList cfg now rest
    ((k, p.1) :: q.1, p.2 ++ q.2)

/-- src/coordinator.ts checkTimeouts: one sweep against a single time
snapshot. -/
def checkTimeouts (cfg : CoordinatorConfig) (s : BuildState) (now : Int) :
    BuildState × List String :=
  ({ s with components := (sweepList cfg now s.components).1 },
    (sweepList cfg now s.components).2)

/-- Spec-side reading of DependenciesSatisfied: every named dependency
resolves to an existing component whose status is merged. -/
def dependenciesSatisfiedSpec (s : BuildState) (c : Component) : Prop :=
  ∀ d ∈ c.dependencies, ∃ e, findEntry s.components d = some e ∧ e.status = .merged

/-- The spec invariant for one component: assignee is set iff the status
is claimed, building, ready or auditing. -/
def compInv (c : Component) : Prop :=
  c.assignee.isSome = true ↔
    (c.status = .claimed ∨ c.status = .building ∨ c.status = .ready ∨ c.status = .auditing)

/-- The spec invariant over a whole state. -/
def assigneeInv (s : BuildState) : Prop :=
  ∀ e ∈ s.components, compInv e.2

/-- No component carries the declared but unreachable statuses failed or
auditing. -/
def statusOK (s : BuildState) : Prop :=
  ∀ e ∈ s.components, e.2.status ≠ .failed ∧ e.2.status ≠ .auditing

/-- States reachable from construction by message handling and timeout
sweeps. -/
inductive Reachable (cfg : CoordinatorConfig) : BuildState → Prop where
  | init : ∀ u comps t, Reachable cfg (initState u comps t)
  | msg : ∀ s content agent now, Reachable cfg s →
      Reachable cfg (handleMessage cfg s content agent now).1
  | sweep : ∀ s now, Reachable cfg s →
      Reachable cfg (checkTimeouts cfg s now).1

/-! Helper lemmas about the map operations and the dependency queries. -/

theorem mem_mapSet_cases {m : List (String × Component)} {k : String} {v : Component}
    {e : String × Component} (he : e ∈ mapSet m k v) : e ∈ m ∨ e.2 = v := by
  induction m with
  | nil =>
    simp [mapSet] at he
    exact Or.inr (by simp [he])
  | cons hd rest ih =>
    by_cases hk : hd.1 = k
    · simp [mapSet, hk] at he
      rcases he with he | he
      · exact Or.inr (by simp [he])
      · exact Or.inl (List.mem_cons_of_mem _ he)
    · rcases hd with ⟨k1, v1⟩
      simp only [mapSet, if_neg hk] at he
      rcases List.mem_cons.mp he with he | he
      · exact Or.inl (by simp [he])
      · rcases ih he with h | h
        · exact Or.inl (List.mem_cons_of_mem _ h)
        · exact Or.inr h

theorem mem_mapUpdate_cases {m : List (String × Component)} {k : String}
    {f : Component → Component} {e : String × Component} (he : e ∈ mapUpdate m k f) :
    e ∈ m ∨ ∃ c, findEntry m k = some c ∧ e = (k, f c) := by
  induction m with
  | nil => simp [mapUpdate] at he
  | cons hd rest ih =>
    rcases hd with ⟨k1, v1⟩
    by_cases hk : k1 = k
    · subst hk
      simp only [mapUpdate, if_pos rfl] at he
      rcases List.mem_cons.mp he with he | he
      · exact Or.inr ⟨v1, by simp [findEntry], he⟩
      · exact Or.inl (List.mem_cons_of_mem _ he)
    · simp only [mapUpdate, if_neg hk] at he
      rcases List.mem_cons.mp he with he | he
      · exact Or.inl (by simp [he])
      · rcases ih he with h | ⟨c, hc, he2⟩
        · exact Or.inl (List.mem_cons_of_mem _ h)
        · exact Or.inr ⟨c, by simp [findEntry, hk, hc], he2⟩

theorem findEntry_mapUpdate_self (m : List (String × Component)) (k : String)
    (f : Component → Component) :
    findEntry (mapUpdate m k f) k = (findEntry m k).map f := by
  induction m with
  | nil => rfl
  | cons hd rest ih =>
    rcases hd with ⟨k1, v1⟩
    by_cases hk : k1 = k <;> simp [mapUpdate, findEntry, hk, ih]

theorem unmetDeps_eq_nil_iff (s : BuildState) (ds : List String) :
    unmetDeps s ds = [] ↔ depsAllMerged s ds = true := by
  induction ds with
  | nil => simp [unmetDeps, depsAllMerged]
  | cons d ds ih =>
    unfold unmetDeps depsAllMerged
    cases hfe : findEntry s.components d with
    | none => simp
    | some dep => by_cases hm : dep.status = .merged <;> simp [hm, ih]

theorem depsAllMerged_iff (s : BuildState) (ds : List String) :
    depsAllMerged s ds = true ↔
      ∀ d ∈ ds, ∃ e, findEntry s.components d = some e ∧ e.status = .merged := by
  induction ds with
  | nil => simp [depsAllMerged]
  | cons d ds ih =>
    unfold depsAllMerged
    cases hfe : findEntry s.components d with
    | none => simp [hfe]
    | some dep => by_cases hm : dep.status = .merged <;> simp [hfe, hm, ih]

theorem sweepComp_eq_of_claim {cfg : CoordinatorConfig} {now : Int} {c : Component}
    (h : expiredClaim cfg now c = true) :
    sweepComp cfg now c =
      ({ c with status := .pending, assignee := none, claimedAt := none },
        [formatMessage .TIMEOUT [c.name]]) := by
  have h2 : expiredProgress cfg now
      { c with status := ComponentStatus.pending, assignee := none, claimedAt := none }
        = false := by
    simp [expiredProgress]
  simp [sweepComp, h, h2]

theorem sweepComp_eq_of_progress {cfg : CoordinatorConfig} {now : Int} {c : Component}
    (h1 : expiredClaim cfg now c = false) (h2 : expiredProgress cfg now c = true) :
    sweepComp cfg now c =
      ({ c with status := .pending, assignee := none, lastProgress := none },
        [formatMessage .TIMEOUT [c.name]]) := by
  simp [sweepComp, h1, h2]

theorem sweepComp_eq_of_quiet {cfg : CoordinatorConfig} {now : Int} {c : Component}
    (h1 : expiredClaim cfg now c = false) (h2 : expiredProgress cfg now c = false) :
    sweepComp cfg now c = (c, []) := by
  simp [sweepComp, h1, h2]

theorem expiredClaim_pending {cfg : CoordinatorConfig} {now : Int} {c : Component}
    (h : c.status = .pending) : expiredClaim cfg now c = false := by
  simp [expiredClaim, h]

theorem expiredProgress_pending {cfg : CoordinatorConfig} {now : Int} {c : Component}
    (h : c.status = .pending) : expiredProgress cfg now c = false := by
  simp [expiredProgress, h]

theorem sweepComp_idem (cfg : CoordinatorConfig) (now : Int) (c : Component) :
    sweepComp cfg now (sweepComp cfg now c).1 = ((sweepComp cfg now c).1, []) := by
  rcases h1 : expiredClaim cfg now c with _ | _
  · rcases h2 : expiredProgress cfg now c with _ | _
    · rw [sweepComp_eq_of_quiet h1 h2]
      exact sweepComp_eq_of_quiet h1 h2
    · rw [sweepComp_eq_of_progress h1 h2]
      exact sweepComp_eq_of_quiet (expiredClaim_pending rfl) (expiredProgress_pending rfl)
  · rw [sweepComp_eq_of_claim h1]
    exact sweepComp_eq_of_quiet (expiredClaim_pending rfl) (expiredProgress_pending rfl)

theorem sweepList_idem (cfg : CoordinatorConfig) (now : Int)
    (m : List (String × Component)) :
    sweepList cfg now (sweepList cfg now m).1 = ((sweepList cfg now m).1, []) := by
  induction m with
  | nil => rfl
  | cons e rest ih =>
    simp [sweepList, sweepComp_idem, ih]

/-- C7: the timeout sweep is idempotent against one time snapshot: a
second checkTimeouts run on the state the first produced leaves the
state unchanged and emits no message. -/
theorem checkTimeouts_idempotent (cfg : CoordinatorConfig) (s : BuildState) (now : Int) :
    checkTimeouts cfg (checkTimeouts cfg s now).1 now = ((checkTimeouts cfg s now).1, []) := by
  simp [checkTimeouts, sweepList_idem]

/-- C2 counterexample: claim component a, then AUDIT a PASS. The
component is merged but the assignee is still set, so the iff between
a set assignee and an active status fails on this reachable state. -/
theorem audit_pass_breaks_assignee_inv :
    ¬ assigneeInv (handleMessage DEFAULT_CONFIG
      (handleMessage DEFAULT_CONFIG (initState "u" [("a", [])] 0) "CLAIM a" "b1" 10).1
      "AUDIT a PASS" "aud" 20).1 := by
  unfold assigneeInv compInv
  decide

/-- C3: a fresh successful CLAIM does not reset retryCount. After three
AUDIT FAIL events exhaust the retries and release component a, a new
CLAIM by another agent is acknowledged while retryCount stays at 3. -/
theorem claim_does_not_reset_retryCount :
    (fun r : BuildState × List String =>
      (findEntry r.1.components "a").map (fun c => (c.status, c.assignee, c.retryCount))
          = some (.claimed, some "b2", 3)
        ∧ r.2 = [formatMessage .ACK ["a", "b2"]])
    (handleMessage DEFAULT_CONFIG
      (handleMessage DEFAULT_CONFIG
        (handleMessage DEFAULT_CONFIG
          (handleMessage DEFAULT_CONFIG
            (handleMessage DEFAULT_CONFIG (initState "u" [("a", [])] 0)
              "CLAIM a" "b1" 1).1
            "AUDIT a FAIL" "aud" 2).1
          "AUDIT a FAIL" "aud" 3).1
        "AUDIT a FAIL" "aud" 4).1
      "CLAIM a" "b2" 5) := by
  decide

/-- C4: the parser captures the verdict as typed and handleAudit compares
it to the exact upper-case PASS, so AUDIT a pass is handled as a FAIL:
the pending component becomes building with retryCount 1 and no MERGED
message, while AUDIT a PASS merges it. -/
theorem audit_lowercase_pass_treated_as_fail :
    (fun r : BuildState × List String =>
      (findEntry r.1.components "a").map (fun c => (c.status, c.retryCount))
          = some (.building, 1)
        ∧ r.2 = [])
    (handleMessage DEFAULT_CONFIG (initState "u" [("a", [])] 0) "AUDIT a pass" "aud" 1)
    ∧ (fun r : BuildState × List String =>
        (findEntry r.1.components "a").map (fun c => c.status) = some .merged)
      (handleMessage DEFAULT_CONFIG (initState "u" [("a", [])] 0) "AUDIT a PASS" "aud" 1)
    ∧ parseMessage "AUDIT a pass" "aud"
        = some { type := .AUDIT, component := "a", agent := "aud", value := some "pass" } := by
  decide

/-- C5 counterexample: CLAIM a, PROGRESS a, then a voluntary ABORT by
the assignee. The release returns the component to pending and clears
claimedAt, but lastProgress keeps its stale value 30. -/
theorem abort_keeps_lastProgress :
    (findEntry (handleMessage DEFAULT_CONFIG
      (handleMessage DEFAULT_CONFIG
        (handleMessage DEFAULT_CONFIG (initState "u" [("a", [])] 0) "CLAIM a" "b1" 10).1
        "PROGRESS a 50" "b1" 30).1
      "ABORT a" "b1" 40).1.components "a").map
        (fun c => (c.status, c.assignee, c.claimedAt, c.lastProgress))
      = some (.pending, none, none, some 30) := by
  decide

/-- C8 counterexample: wrapping a CLAIM line in markdown bold is matched
but not stripped from the capture: the trailing asterisks stay inside
the component name, so the parsed events differ; bolding only the
keyword makes the line unparseable. -/
theorem bold_wrapped_claim_not_stripped :
    parseMessage "**CLAIM foo**" "a1"
        = some { type := .CLAIM, component := "foo**", agent := "a1", value := none }
      ∧ parseMessage "CLAIM foo" "a1"
        = some { type := .CLAIM, component := "foo", agent := "a1", value := none }
      ∧ parseMessage "**CLAIM foo**" "a1" ≠ parseMessage "CLAIM foo" "a1"
      ∧ parseMessage "**CLAIM** foo" "a1" = none := by
  decide

/-- C10 counterexample: after CLAIM, PROGRESS and ABORT, component a is
pending with a stale lastProgress; an AUDIT FAIL then makes it an
unassigned building component, and the timeout sweep does affect it:
it releases it back to pending and emits TIMEOUT a. -/
theorem sweep_affects_stale_unassigned_building :
    (fun s4 : BuildState =>
      (findEntry s4.components "a").map (fun c => (c.status, c.assignee, c.lastProgress))
          = some (.building, none, some 30)
        ∧ (checkTimeouts DEFAULT_CONFIG s4 600031).2 = [formatMessage .TIMEOUT ["a"]]
        ∧ (findEntry (checkTimeouts DEFAULT_CONFIG s4 600031).1.components "a").map
            (fun c => c.status) = some .pending)
    (handleMessage DEFAULT_CONFIG
      (handleMessage DEFAULT_CONFIG
        (handleMessage DEFAULT_CONFIG
          (handleMessage DEFAULT_CONFIG (initState "u" [("a", [])] 0) "CLAIM a" "b1" 10).1
          "PROGRESS a 50" "b1" 30).1
        "ABORT a" "b1" 40).1
      "AUDIT a FAIL" "aud" 50).1 := by
  decide

/-- C1: handleClaim answers every CLAIM with exactly one message: REJECT
component-not-found when the component does not exist, REJECT citing the
current status and assignee when it is not pending, REJECT listing the
unmet dependency names when some dependency is missing or not merged,
and otherwise it sets status claimed, assignee to the sender and
claimedAt to now and answers with one ACK naming component and sender. -/
theorem handleClaim_cases (s : BuildState) (msg : ParsedMessage) (now : Int) :
    (handleClaim s msg now).2.length = 1
    ∧ (findEntry s.components msg.component = none →
        handleClaim s msg now
          = (s, [formatMessage .REJECT [msg.component, "component not found"]]))
    ∧ (∀ c, findEntry s.components msg.component = some c → c.status ≠ .pending →
        handleClaim s msg now = (s, [formatMessage .REJECT [msg.component,
          "already " ++ statusText c.status ++ " by " ++ assigneeText c.assignee]]))
    ∧ (∀ c, findEntry s.components msg.component = some c → c.status = .pending →
        unmetDeps s c.dependencies ≠ [] →
        handleClaim s msg now = (s, [formatMessage .REJECT [msg.component,
          "dependencies not met: " ++ joinSep ", " (unmetDeps s c.dependencies)]]))
    ∧ (∀ c, findEntry s.components msg.component = some c → c.status = .pending →
        unmetDeps s c.dependencies = [] →
        handleClaim s msg now
          = ({ s with components := mapUpdate s.components msg.component (fun x =>
                { x with
                  status := .claimed, assignee := some msg.agent,
                  claimedAt := some now }) },
            [formatMessage .ACK [msg.component, msg.agent]])) := by
  refine ⟨?_, ?_, ?_, ?_, ?_⟩
  · rcases hfe : findEntry s.components msg.component with _ | c
    · simp [handleClaim, hfe]
    · by_cases hst : c.status = .pending
      · by_cases hdm : dependenciesMet s c = true
        · simp [handleClaim, hfe, hst, hdm]
        · simp [handleClaim, hfe, hst, hdm]
      · simp [handleClaim, hfe, hst]
  · intro hfe
    simp [handleClaim, hfe]
  · intro c hfe hst
    simp [handleClaim, hfe, hst]
  · intro c hfe hst hun
    have hdm : dependenciesMet s c = false := by
      rcases h : dependenciesMet s c with _ | _
      · rfl
      · exact absurd ((unmetDeps_eq_nil_iff s c.dependencies).mpr h) hun
    simp [handleClaim, hfe, hst, hdm]
  · intro c hfe hst hun
    have hdm : dependenciesMet s c = true :=
      (unmetDeps_eq_nil_iff s c.dependencies).mp hun
    simp [handleClaim, hfe, hst, hdm]

/-- C1 witness: claiming an unknown component in an empty build returns
the state unchanged with the single component-not-found REJECT. -/
theorem handleClaim_cases_witness :
    handleClaim (initState "u" [] 0) { type := .CLAIM, component := "a", agent := "b1" } 7
      = (initState "u" [] 0, [formatMessage .REJECT ["a", "component not found"]]) :=
  (handleClaim_cases (initState "u" [] 0)
    { type := .CLAIM, component := "a", agent := "b1" } 7).2.1 (by decide)

/-- C6: the claimable query returns exactly the pending components all
of whose dependencies resolve to merged components, as a sublist of the
registry in insertion order, and a component with a dependency name
matching no component never appears. -/
theorem getAvailableComponents_spec (s : BuildState) :
    (∀ c, c ∈ getAvailableComponents s ↔
      ((∃ k, (k, c) ∈ s.components) ∧ c.status = .pending ∧ dependenciesSatisfiedSpec s c))
    ∧ (getAvailableComponents s).Sublist (s.components.map Prod.snd)
    ∧ (∀ c d, d ∈ c.dependencies → findEntry s.components d = none →
        c ∉ getAvailableComponents s) := by
  have hmem : ∀ c, c ∈ getAvailableComponents s ↔
      ((∃ k, (k, c) ∈ s.components) ∧ c.status = .pending ∧ dependenciesSatisfiedSpec s c) := by
    intro c
    unfold getAvailableComponents
    rw [List.mem_filter]
    constructor
    · rintro ⟨hin, hp⟩
      rcases List.mem_map.mp hin with ⟨e, he, rfl⟩
      unfold claimableB at hp
      by_cases hst : e.2.status = .pending
      · rw [if_pos hst] at hp
        exact ⟨⟨e.1, by simpa using he⟩, hst,
          (depsAllMerged_iff s e.2.dependencies).mp hp⟩
      · rw [if_neg hst] at hp
        exact absurd hp (by simp)
    · rintro ⟨⟨k, hk⟩, hst, hdep⟩
      refine ⟨List.mem_map.mpr ⟨(k, c), hk, rfl⟩, ?_⟩
      unfold claimableB
      rw [if_pos hst]
      exact (depsAllMerged_iff s c.dependencies).mpr hdep
  refine ⟨hmem, List.filter_sublist _, ?_⟩
  intro c d hd hnone hin
  rcases ((hmem c).mp hin).2.2 d hd with ⟨e, he, _⟩
  rw [hnone] at he
  exact Option.noConfusion he

/-- C6 witness: a component whose only dependency names a nonexistent
component is not claimable, whatever the rest of the registry holds. -/
theorem getAvailableComponents_spec_witness :
    ({ name := "a", status := ComponentStatus.pending, dependencies := ["ghost"], retryCount := 0 } : Component)
      ∉ getAvailableComponents (initState "u" [("a", ["ghost"])] 0) :=
  (getAvailableComponents_spec (initState "u" [("a", ["ghost"])] 0)).2.2
    ({ name := "a", status := ComponentStatus.pending, dependencies := ["ghost"], retryCount := 0 } : Component)
    "ghost" (by decide) (by decide)

/-- C5 amended: every release path returns the component to pending and
clears the assignee, but each clears only part of the timestamps: the
voluntary ABORT clears claimedAt and keeps lastProgress, retry
exhaustion on AUDIT FAIL keeps both timestamps, the claim-expiry sweep
clears claimedAt only, and the progress-timeout sweep clears
lastProgress only, so stale timestamps can persist on pending
components. -/
theorem release_path_effects (cfg : CoordinatorConfig) :
    (∀ s msg c, findEntry s.components msg.component = some c →
        c.assignee = some msg.agent →
        findEntry (handleAbort s msg).1.components msg.component
          = some { c with status := .pending, assignee := none, claimedAt := none })
    ∧ (∀ s msg c, findEntry s.components msg.component = some c →
        msg.value ≠ some "PASS" → c.retryCount + 1 ≥ cfg.maxRetries →
        findEntry (handleAudit cfg s msg).1.components msg.component
          = some { c with
                   status := .pending, assignee := none,
                   retryCount := c.retryCount + 1 })
    ∧ (∀ now c, expiredClaim cfg now c = true →
        (sweepComp cfg now c).1
          = { c with status := .pending, assignee := none, claimedAt := none })
    ∧ (∀ now c, expiredClaim cfg now c = false → expiredProgress cfg now c = true →
        (sweepComp cfg now c).1
          = { c with status := .pending, assignee := none, lastProgress := none }) := by
  refine ⟨?_, ?_, ?_, ?_⟩
  · intro s msg c hfe ha
    simp [handleAbort, hfe, ha, findEntry_mapUpdate_self]
  · intro s msg c hfe hv hr
    simp [handleAudit, hfe, hv, hr, findEntry_mapUpdate_self]
  · intro now c h
    rw [sweepComp_eq_of_claim h]
  · intro now c h1 h2
    rw [sweepComp_eq_of_progress h1 h2]

/-- C5 amended witness: an expired claimed component is released by the
sweep with claimedAt cleared (and its other fields untouched). -/
theorem release_path_effects_witness :
    (sweepComp DEFAULT_CONFIG 1000000
      ({ name := "a", status := ComponentStatus.claimed, assignee := some "b1",
         dependencies := [], claimedAt := some 1, retryCount := 0 } : Component)).1
      = ({ name := "a", status := ComponentStatus.pending, assignee := none,
           dependencies := [], claimedAt := none, retryCount := 0 } : Component) :=
  (release_path_effects DEFAULT_CONFIG).2.2.1 1000000
    ({ name := "a", status := ComponentStatus.claimed, assignee := some "b1",
       dependencies := [], claimedAt := some 1, retryCount := 0 } : Component)
    (by decide)

/-- C10 amended: an AUDIT verdict applies to any existing component
regardless of status or sender: PASS merges it (pending or not, leaving
any assignee in place), and FAIL below the retry limit makes it
building with retryCount bumped even when unassigned. An unassigned
component is never touched by PROGRESS or ABORT, and an unassigned
building component with no lastProgress timestamp is never touched by
the sweep; the earlier counterexample shows a stale lastProgress lets
the sweep release it. -/
theorem audit_unconditional_effects (cfg : CoordinatorConfig) :
    (∀ s msg c, findEntry s.components msg.component = some c →
        msg.value = some "PASS" →
        findEntry (handleAudit cfg s msg).1.components msg.component
          = some { c with status := .merged })
    ∧ (∀ s msg c, findEntry s.components msg.component = some c →
        msg.value ≠ some "PASS" → c.retryCount + 1 < cfg.maxRetries →
        findEntry (handleAudit cfg s msg).1.components msg.component
          = some { c with status := .building, retryCount := c.retryCount + 1 })
    ∧ (∀ s msg now c, findEntry s.components msg.component = some c →
        c.assignee = none → handleProgress s msg now = (s, []))
    ∧ (∀ s msg c, findEntry s.components msg.component = some c →
        c.assignee = none → handleAbort s msg = (s, []))
    ∧ (∀ now c, c.status = .building → c.lastProgress = none →
        sweepComp cfg now c = (c, [])) := by
  refine ⟨?_, ?_, ?_, ?_, ?_⟩
  · intro s msg c hfe hv
    simp [handleAudit, hfe, hv, findEntry_mapUpdate_self]
  · intro s msg c hfe hv hr
    have hnr : ¬ c.retryCount + 1 ≥ cfg.maxRetries := Nat.not_le.mpr hr
    simp [handleAudit, hfe, hv, hnr, findEntry_mapUpdate_self]
  · intro s msg now c hfe ha
    have hne : c.assignee ≠ some msg.agent := by
      rw [ha]
      exact Option.noConfusion
    simp [handleProgress, hfe, hne]
  · intro s msg c hfe ha
    have hne : c.assignee ≠ some msg.agent := by
      rw [ha]
      exact Option.noConfusion
    simp [handleAbort, hfe, hne]
  · intro now c hst hlp
    have h1 : expiredClaim cfg now c = false := by
      simp [expiredClaim, hst]
    have h2 : expiredProgress cfg now c = false := by
      simp [expiredProgress, hst, hlp]
    exact sweepComp_eq_of_quiet h1 h2

/-- C10 amended witness: AUDIT PASS on a pending, never claimed
component with no artifact merges it. -/
theorem audit_unconditional_effects_witness :
    findEntry (handleAudit DEFAULT_CONFIG (initState "u" [("a", [])] 0)
        { type := .AUDIT, component := "a", agent := "aud", value := some "PASS" }).1.components "a"
      = some ({ name := "a", status := ComponentStatus.merged, assignee := none,
                dependencies := [], retryCount := 0 } : Component) :=
  (audit_unconditional_effects DEFAULT_CONFIG).1 (initState "u" [("a", [])] 0)
    { type := .AUDIT, component := "a", agent := "aud", value := some "PASS" }
    ({ name := "a", status := ComponentStatus.pending, assignee := none,
       dependencies := [], retryCount := 0 } : Component)
    (by decide) rfl

theorem initState_mem {u : String} {comps : List (String × List String)} {t : Int}
    {e : String × Component} (he : e ∈ (initState u comps t).components) :
    e.2.status = ComponentStatus.pending ∧ e.2.assignee = none := by
  have key : ∀ (cs : List (String × List String)) (acc : List (String × Component)),
      (∀ e' ∈ acc, e'.2.status = ComponentStatus.pending ∧ e'.2.assignee = none) →
      ∀ e' ∈ cs.foldl (fun m c =>
        mapSet m (String.mk (lowerChars c.1.data))
          { name := c.1, status := .pending,
            dependencies := c.2.map (fun d => String.mk (lowerChars d.data)),
            retryCount := 0 }) acc,
      e'.2.status = ComponentStatus.pending ∧ e'.2.assignee = none := by
    intro cs
    induction cs with
    | nil =>
      intro acc hacc e' he'
      exact hacc e' he'
    | cons c cs ih =>
      intro acc hacc e' he'
      refine ih _ ?_ e' he'
      intro e2 he2
      rcases mem_mapSet_cases he2 with h | h
      · exact hacc e2 h
      · constructor <;> simp [h]
  exact key comps [] (by simp) e he

theorem sweepList_mem {cfg : CoordinatorConfig} {now : Int}
    {m : List (String × Component)} {e : String × Component}
    (he : e ∈ (sweepList cfg now m).1) :
    ∃ e0 ∈ m, e = (e0.1, (sweepComp cfg now e0.2).1) := by
  induction m with
  | nil => simp [sweepList] at he
  | cons hd rest ih =>
    rcases hd with ⟨k, c⟩
    simp only [sweepList] at he
    rcases List.mem_cons.mp he with he | he
    · exact ⟨(k, c), List.mem_cons_self _ _, by simp [he]⟩
    · rcases ih he with ⟨e0, h0, h1⟩
      exact ⟨e0, List.mem_cons_of_mem _ h0, h1⟩

theorem compInv_sweepComp {cfg : CoordinatorConfig} {now : Int} {c : Component}
    (h : compInv c) : compInv (sweepComp cfg now c).1 := by
  rcases h1 : expiredClaim cfg now c with _ | _
  · rcases h2 : expiredProgress cfg now c with _ | _
    · rw [sweepComp_eq_of_quiet h1 h2]
      exact h
    · rw [sweepComp_eq_of_progress h1 h2]
      simp [compInv]
  · rw [sweepComp_eq_of_claim h1]
    simp [compInv]

theorem assigneeInv_handleClaim {s : BuildState} {msg : ParsedMessage} {now : Int}
    (h : assigneeInv s) : assigneeInv (handleClaim s msg now).1 := by
  rcases hfe : findEntry s.components msg.component with _ | c
  · simpa only [handleClaim, hfe] using h
  · by_cases hst : c.status = .pending
    · by_cases hdm : dependenciesMet s c = true
      · simp only [handleClaim, hfe, hst, hdm, ne_eq, not_true_eq_false, if_false,
          if_true, not_false_eq_true]
        intro e he
        rcases mem_mapUpdate_cases he with h1 | ⟨c2, hc2, rfl⟩
        · exact h e h1
        · simp [compInv]
      · have hdm2 : dependenciesMet s c = false := by
          rcases hx : dependenciesMet s c with _ | _
          · rfl
          · exact absurd hx hdm
        simpa only [handleClaim, hfe, hst, hdm2, ne_eq, not_true_eq_false, if_false,
          Bool.false_eq_true] using h
    · simpa only [handleClaim, hfe, hst, ne_eq, not_false_eq_true, if_true] using h

theorem assigneeInv_handleProgress {s : BuildState} {msg : ParsedMessage} {now : Int}
    (h : assigneeInv s) : assigneeInv (handleProgress s msg now).1 := by
  rcases hfe : findEntry s.components msg.component with _ | c
  · simpa only [handleProgress, hfe] using h
  · by_cases ha : c.assignee = some msg.agent
    · simp only [handleProgress, hfe, if_pos ha]
      intro e he
      rcases mem_mapUpdate_cases he with h1 | ⟨c2, hc2, rfl⟩
      · exact h e h1
      · have hcc : c2 = c := by
          rw [hfe] at hc2
          exact (Option.some.inj hc2).symm
        subst hcc
        simp [compInv, ha]
    · simpa only [handleProgress, hfe, if_neg ha] using h

theorem assigneeInv_handleReady {s : BuildState} {msg : ParsedMessage}
    (h : assigneeInv s) : assigneeInv (handleReady s msg).1 := by
  rcases hfe : findEntry s.components msg.component with _ | c
  · simpa only [handleReady, hfe] using h
  · by_cases ha : c.assignee = some msg.agent
    · simp only [handleReady, hfe, if_pos ha]
      intro e he
      rcases mem_mapUpdate_cases he with h1 | ⟨c2, hc2, rfl⟩
      · exact h e h1
      · have hcc : c2 = c := by
          rw [hfe] at hc2
          exact (Option.some.inj hc2).symm
        subst hcc
        simp [compInv, ha]
    · simpa only [handleReady, hfe, if_neg ha] using h

theorem assigneeInv_handleAbort {s : BuildState} {msg : ParsedMessage}
    (h : assigneeInv s) : assigneeInv (handleAbort s msg).1 := by
  rcases hfe : findEntry s.components msg.component with _ | c
  · simpa only [handleAbort, hfe] using h
  · by_cases ha : c.assignee = some msg.agent
    · simp only [handleAbort, hfe, if_pos ha]
      intro e he
      rcases mem_mapUpdate_cases he with h1 | ⟨c2, hc2, rfl⟩
      · exact h e h1
      · simp [compInv]
    · simpa only [handleAbort, hfe, if_neg ha] using h

theorem assigneeInv_checkTimeouts {cfg : CoordinatorConfig} {s : BuildState} {now : Int}
    (h : assigneeInv s) : assigneeInv (checkTimeouts cfg s now).1 := by
  intro e he
  simp only [checkTimeouts] at he
  rcases sweepList_mem he with ⟨e0, h0, rfl⟩
  exact compInv_sweepComp (h e0 h0)

/-- C2 amended: the assignee-iff-active-status invariant holds at
construction and is preserved by CLAIM, PROGRESS, READY, BLOCKED, ABORT
and the timeout sweep; the counterexample shows AUDIT can break it in
both directions, so the invariant is not maintained across AUDIT. -/
theorem assigneeInv_preserved_outside_audit (cfg : CoordinatorConfig) :
    (∀ u comps t, assigneeInv (initState u comps t))
    ∧ (∀ s msg now, msg.type ≠ .AUDIT → assigneeInv s →
        assigneeInv (handleParsed cfg s msg now).1)
    ∧ (∀ s now, assigneeInv s → assigneeInv (checkTimeouts cfg s now).1) := by
  refine ⟨?_, ?_, ?_⟩
  · intro u comps t e he
    have h2 := initState_mem he
    simp [compInv, h2.1, h2.2]
  · intro s msg now hty hinv
    rcases htype : msg.type
    case TASKS => simpa only [handleParsed, htype] using hinv
    case CLAIM =>
      simp only [handleParsed, htype]
      exact assigneeInv_handleClaim hinv
    case ACK => simpa only [handleParsed, htype] using hinv
    case REJECT => simpa only [handleParsed, htype] using hinv
    case PROGRESS =>
      simp only [handleParsed, htype]
      exact assigneeInv_handleProgress hinv
    case BLOCKED => simpa only [handleParsed, htype] using hinv
    case READY =>
      simp only [handleParsed, htype]
      exact assigneeInv_handleReady hinv
    case AUDIT => exact absurd htype hty
    case MERGED => simpa only [handleParsed, htype] using hinv
    case TIMEOUT => simpa only [handleParsed, htype] using hinv
    case RETRY => simpa only [handleParsed, htype] using hinv
    case ABORT =>
      simp only [handleParsed, htype]
      exact assigneeInv_handleAbort hinv
  · intro s now hinv
    exact assigneeInv_checkTimeouts hinv

/-- C2 amended witness: the invariant holds after a concrete CLAIM on a
freshly constructed one-component build. -/
theorem assigneeInv_preserved_outside_audit_witness :
    assigneeInv (handleParsed DEFAULT_CONFIG (initState "u" [("a", [])] 0)
      { type := .CLAIM, component := "a", agent := "b1" } 5).1 :=
  (assigneeInv_preserved_outside_audit DEFAULT_CONFIG).2.1
    (initState "u" [("a", [])] 0) { type := .CLAIM, component := "a", agent := "b1" } 5
    (by decide)
    (by
      unfold assigneeInv compInv
      decide)

/-- Statuses a component update may write; shorthand for the C9 proof. -/
def compOK (c : Component) : Prop :=
  c.status ≠ ComponentStatus.failed ∧ c.status ≠ ComponentStatus.auditing

theorem statusOK_mapUpdate {s : BuildState} {k : String} {f : Component → Component}
    (h : statusOK s) (hf : ∀ c, compOK (f c)) :
    statusOK { s with components := mapUpdate s.components k f } := by
  intro e he
  rcases mem_mapUpdate_cases he with h1 | ⟨c, _, rfl⟩
  · exact h e h1
  · exact hf c

theorem statusOK_handleClaim {s : BuildState} {msg : ParsedMessage} {now : Int}
    (h : statusOK s) : statusOK (handleClaim s msg now).1 := by
  rcases hfe : findEntry s.components msg.component with _ | c
  · simpa only [handleClaim, hfe] using h
  · by_cases hst : c.status = .pending
    · by_cases hdm : dependenciesMet s c = true
      · simp only [handleClaim, hfe, hst, hdm, ne_eq, not_true_eq_false, if_false,
          if_true, not_false_eq_true]
        exact statusOK_mapUpdate h (fun c2 => by constructor <;> simp)
      · have hdm2 : dependenciesMet s c = false := by
          rcases hx : dependenciesMet s c with _ | _
          · rfl
          · exact absurd hx hdm
        simpa only [handleClaim, hfe, hst, hdm2, ne_eq, not_true_eq_false, if_false,
          Bool.false_eq_true] using h
    · simpa only [handleClaim, hfe, hst, ne_eq, not_false_eq_true, if_true] using h

theorem statusOK_handleProgress {s : BuildState} {msg : ParsedMessage} {now : Int}
    (h : statusOK s) : statusOK (handleProgress s msg now).1 := by
  rcases hfe : findEntry s.components msg.component with _ | c
  · simpa only [handleProgress, hfe] using h
  · by_cases ha : c.assignee = some msg.agent
    · simp only [handleProgress, hfe, if_pos ha]
      exact statusOK_mapUpdate h (fun c2 => by constructor <;> simp)
    · simpa only [handleProgress, hfe, if_neg ha] using h

theorem statusOK_handleReady {s : BuildState} {msg : ParsedMessage}
    (h : statusOK s) : statusOK (handleReady s msg).1 := by
  rcases hfe : findEntry s.components msg.component with _ | c
  · simpa only [handleReady, hfe] using h
  · by_cases ha : c.assignee = some msg.agent
    · simp only [handleReady, hfe, if_pos ha]
      exact statusOK_mapUpdate h (fun c2 => by constructor <;> simp)
    · simpa only [handleReady, hfe, if_neg ha] using h

theorem statusOK_handleAbort {s : BuildState} {msg : ParsedMessage}
    (h : statusOK s) : statusOK (handleAbort s msg).1 := by
  rcases hfe : findEntry s.components msg.component with _ | c
  · simpa only [handleAbort, hfe] using h
  · by_cases ha : c.assignee = some msg.agent
    · simp only [handleAbort, hfe, if_pos ha]
      exact statusOK_mapUpdate h (fun c2 => by constructor <;> simp)
    · simpa only [handleAbort, hfe, if_neg ha] using h

theorem statusOK_handleAudit {cfg : CoordinatorConfig} {s : BuildState}
    {msg : ParsedMessage} (h : statusOK s) : statusOK (handleAudit cfg s msg).1 := by
  rcases hfe : findEntry s.components msg.component with _ | c
  · simpa only [handleAudit, hfe] using h
  · by_cases hv : msg.value = some "PASS"
    · simp only [handleAudit, hfe, if_pos hv]
      exact statusOK_mapUpdate h (fun c2 => by constructor <;> simp)
    · by_cases hr : c.retryCount + 1 ≥ cfg.maxRetries
      · simp only [handleAudit, hfe, if_neg hv, if_pos hr]
        exact statusOK_mapUpdate h (fun c2 => by constructor <;> simp)
      · simp only [handleAudit, hfe, if_neg hv, if_neg hr]
        exact statusOK_mapUpdate h (fun c2 => by constructor <;> simp)

theorem statusOK_sweepComp {cfg : CoordinatorConfig} {now : Int} {c : Component}
    (h : compOK c) : compOK (sweepComp cfg now c).1 := by
  rcases h1 : expiredClaim cfg now c with _ | _
  · rcases h2 : expiredProgress cfg now c with _ | _
    · rw [sweepComp_eq_of_quiet h1 h2]
      exact h
    · rw [sweepComp_eq_of_progress h1 h2]
      constructor <;> simp
  · rw [sweepComp_eq_of_claim h1]
    constructor <;> simp

theorem statusOK_checkTimeouts {cfg : CoordinatorConfig} {s : BuildState} {now : Int}
    (h : statusOK s) : statusOK (checkTimeouts cfg s now).1 := by
  intro e he
  simp only [checkTimeouts] at he
  rcases sweepList_mem he with ⟨e0, h0, rfl⟩
  exact statusOK_sweepComp (h e0 h0)

theorem statusOK_handleMessage {cfg : CoordinatorConfig} {s : BuildState}
    {content fromAgent : String} {now : Int} (h : statusOK s) :
    statusOK (handleMessage cfg s content fromAgent now).1 := by
  rcases hp : parseMessage content fromAgent with _ | msg
  · simpa only [handleMessage, hp] using h
  · simp only [handleMessage, hp]
    rcases htype : msg.type
    case TASKS => simpa only [handleParsed, htype] using h
    case CLAIM =>
      simp only [handleParsed, htype]
      exact statusOK_handleClaim h
    case ACK => simpa only [handleParsed, htype] using h
    case REJECT => simpa only [handleParsed, htype] using h
    case PROGRESS =>
      simp only [handleParsed, htype]
      exact statusOK_handleProgress h
    case BLOCKED => simpa only [handleParsed, htype] using h
    case READY =>
      simp only [handleParsed, htype]
      exact statusOK_handleReady h
    case AUDIT =>
      simp only [handleParsed, htype]
      exact statusOK_handleAudit h
    case MERGED => simpa only [handleParsed, htype] using h
    case TIMEOUT => simpa only [handleParsed, htype] using h
    case RETRY => simpa only [handleParsed, htype] using h
    case ABORT =>
      simp only [handleParsed, htype]
      exact statusOK_handleAbort h

/-- C9: in every state reachable from construction by message handling
and timeout sweeps, no component has status failed and none has status
auditing: the declared statuses failed and auditing are never assigned. -/
theorem reachable_no_failed_no_auditing (cfg : CoordinatorConfig) (s : BuildState)
    (h : Reachable cfg s) : statusOK s := by
  induction h with
  | init u comps t =>
    intro e he
    have h2 := initState_mem he
    simp [h2.1]
  | msg s content agent now _ ih => exact statusOK_handleMessage ih
  | sweep s now _ ih => exact statusOK_checkTimeouts ih

/-- C9 witness: the property holds at a concrete reachable state, the
fresh construction of a two-component build. -/
theorem reachable_no_failed_no_auditing_witness :
    statusOK (initState "u" [("a", ["b"]), ("b", [])] 0) :=
  reachable_no_failed_no_auditing DEFAULT_CONFIG (initState "u" [("a", ["b"]), ("b", [])] 0)
    (Reachable.init "u" [("a", ["b"]), ("b", [])] 0)

theorem stripBold_double_star (l : List Char) : stripBold ('*' :: '*' :: l) = l := by
  simp [stripBold]

theorem stripBold_of_head_ne {l : List Char} (h : l.head? ≠ some '*') :
    stripBold l = l := by
  rcases l with _ | ⟨a, _ | ⟨b, rest⟩⟩
  · rfl
  · rfl
  · have ha : ¬ a = '*' := by simpa using h
    simp [stripBold, ha]

theorem parseLine_congr {l1 l2 : List Char} (h : stripBold l1 = stripBold l2)
    (a : String) : parseLine l1 a = parseLine l2 a := by
  simp only [parseLine, tryClaim, tryProgress, tryReady, tryBlocked, tryAbort, tryAudit, h]

theorem dropWhile_cons_of_neg {p : Char → Bool} {a : Char} {l : List Char}
    (h : p a = false) : (a :: l).dropWhile p = a :: l := by
  simp [List.dropWhile_cons, h]

theorem head_false_of_dropWhile_self {p : Char → Bool} {a : Char} {l : List Char}
    (h : (a :: l).dropWhile p = a :: l) : p a = false := by
  rcases hp : p a with _ | _
  · rfl
  · exfalso
    have hlen := (List.dropWhile_sublist (l := l) p).length_le
    rw [List.dropWhile_cons_of_pos hp] at h
    rw [h] at hlen
    simp at hlen

theorem jsTrim_self {l : List Char} (h1 : l.dropWhile isWs = l)
    (h2 : l.reverse.dropWhile isWs = l.reverse) : jsTrim l = l := by
  unfold jsTrim
  rw [h1, h2, List.reverse_reverse]

theorem jsTrim_double_star {l : List Char}
    (h1 : l.dropWhile isWs = l)
    (h2 : l.reverse.dropWhile isWs = l.reverse) :
    jsTrim ('*' :: '*' :: l) = '*' :: '*' :: l := by
  unfold jsTrim
  have hstar : isWs '*' = false := by decide
  rw [dropWhile_cons_of_neg hstar]
  have hrev : ('*' :: '*' :: l).reverse = l.reverse ++ ['*', '*'] := by simp
  rw [hrev]
  rcases hr : l.reverse with _ | ⟨a, t⟩
  · have hl : l = [] := by simpa using congrArg List.reverse hr
    subst hl
    decide
  · rw [hr] at h2
    have ha : isWs a = false := head_false_of_dropWhile_self h2
    rw [List.cons_append, dropWhile_cons_of_neg ha, ← List.cons_append,
      List.reverse_append]
    simp [← hr]

theorem double_star_append_data (s : String) :
    ("**" ++ s).data = '*' :: '*' :: s.data := by
  rcases s with ⟨d⟩
  rfl

/-- C8 amended: only a leading double asterisk before the keyword is
tolerated and stripped: for trimmed text not itself starting with an
asterisk, prefixing two asterisks parses to exactly the same event. A
closing double asterisk is not stripped (it lands inside the final
greedy capture, or makes the line unparseable right after the keyword),
as the counterexample shows. -/
theorem parse_strips_leading_bold (s : String) (agent : String)
    (h1 : s.data.dropWhile isWs = s.data)
    (h2 : s.data.reverse.dropWhile isWs = s.data.reverse)
    (h3 : s.data.head? ≠ some '*') :
    parseMessage ("**" ++ s) agent = parseMessage s agent := by
  unfold parseMessage
  rw [double_star_append_data, jsTrim_double_star h1 h2, jsTrim_self h1 h2]
  exact parseLine_congr (by rw [stripBold_double_star, stripBold_of_head_ne h3]) agent

/-- C8 amended witness: prefixing the bold marker to a plain CLAIM line
leaves the parse unchanged. -/
theorem parse_strips_leading_bold_witness :
    parseMessage ("**" ++ "CLAIM foo") "a1" = parseMessage "CLAIM foo" "a1" :=
  parse_strips_leading_bold "CLAIM foo" "a1" (by decide) (by decide) (by decide)

end Mabp
